import Mathlib

/-!
# Verification of the lava-lamp engine and metaball renderer

A shallow embedding of `src/lavalamp/engine.py` and `src/lavalamp/renderer.py`
over the rationals.  Python floats are modelled as `ℚ`; the transcendental
helpers of the source (`math.sqrt`, `math.cos`, `math.sin`, `np.sin`) are
abstracted as explicit function / value parameters (`sqrtFn`, `sinpi`,
per-blob trig draws), since no verified claim depends on their analytic
values.  Draws from the engine's seeded random generator are likewise
threaded as explicit parameters.  All definitions follow the source code
line by line; the one spec-worded definition (`interPairTiered`) is marked
as such.
-/

namespace LavaLamp

/-- Python `int(x)`: truncation toward zero. -/
def truncInt (q : ℚ) : ℤ := if 0 ≤ q then ⌊q⌋ else -⌊-q⌋

/-- `np.clip(x, 0, 255).astype(np.uint8)`: clamp to `[0,255]` then truncate. -/
def toU8 (q : ℚ) : ℤ := truncInt (min 255 (max 0 q))

-- ───────────────────────── engine.py: data model ─────────────────────────

/-- `WaxType` (engine.py): per-blob material multipliers. -/
structure WaxType where
  name : String
  density : ℚ
  heat_sensitivity : ℚ
  viscosity : ℚ
  expansion : ℚ
deriving DecidableEq

def standardWax : WaxType := ⟨"Standard", 1, 1, 1, 1⟩
def heavyWax : WaxType := ⟨"Heavy", 1.6, 0.7, 1.3, 0.8⟩
def lightWax : WaxType := ⟨"Light", 0.6, 1.3, 0.7, 1.2⟩
def sluggishWax : WaxType := ⟨"Sluggish", 1.2, 0.5, 2.0, 0.9⟩
def volatileWax : WaxType := ⟨"Volatile", 0.8, 2.0, 0.5, 1.5⟩
def giantWax : WaxType := ⟨"Giant Globule", 1.1, 0.6, 1.5, 1.4⟩

/-- The `WAX_TYPES` preset dictionary (engine.py), as an association list. -/
def WAX_TYPES : List (String × WaxType) :=
  [("standard", standardWax), ("heavy", heavyWax), ("light", lightWax),
   ("sluggish", sluggishWax), ("volatile", volatileWax), ("giant", giantWax)]

/-- Dictionary lookup `WAX_TYPES[key]` / `key in WAX_TYPES`. -/
def findWax : List (String × WaxType) → String → Option WaxType
  | [], _ => none
  | (k, w) :: rest, n => if k = n then some w else findWax rest n

/-- `Blob` (engine.py): a single wax blob in 3-D space. -/
structure Blob where
  x : ℚ
  y : ℚ
  z : ℚ
  vx : ℚ
  vy : ℚ
  vz : ℚ
  warm_radius : ℚ
  cold_radius : ℚ
  radius : ℚ
  base_radius : ℚ
  temperature : ℚ
  mass : ℚ
  detached : Bool
  color : Option (ℤ × ℤ × ℤ)
  hot_color : Option (ℤ × ℤ × ℤ)
  wax : WaxType
  label : String
deriving DecidableEq

/-- `PhysicsParams` (engine.py): the tunable physics constants. -/
structure PhysicsParams where
  gravity : ℚ
  buoyancy_max : ℚ
  h_drag : ℚ
  v_drag : ℚ
  heat_strength : ℚ
  heat_zone : ℚ
  cool_zone : ℚ
  melt_temp : ℚ
  mid_cool_rate : ℚ
  top_cool_rate : ℚ
  repulsion_strength : ℚ
  thermal_separation : ℚ
  displacement_range : ℚ
  displacement_strength : ℚ
  approach_deflection : ℚ
  wall_radius : ℚ
  warmup_duration : ℚ
  cold_radius_fraction : ℚ
  flow_speed : ℚ
deriving DecidableEq

/-- The dataclass default values of `PhysicsParams`. -/
def defaultParams : PhysicsParams :=
  { gravity := 0.18, buoyancy_max := 0.65, h_drag := 2.5, v_drag := 1.6,
    heat_strength := 1.0, heat_zone := 0.30, cool_zone := 0.65,
    melt_temp := 0.28, mid_cool_rate := 0.08, top_cool_rate := 2.5,
    repulsion_strength := 1.5, thermal_separation := 0.6,
    displacement_range := 1.8, displacement_strength := 0.4,
    approach_deflection := 0.6, wall_radius := 0.42,
    warmup_duration := 18.0, cold_radius_fraction := 0.35, flow_speed := 1.0 }

-- ───────────────────────── engine.py: per-blob step stages ─────────────────────────

/-- Heat-transfer block of `LavaLampEngine.step` (lines 226-231): heating
near the base, clamped above at 1, as a function of the blob's temperature. -/
def heatT (p : PhysicsParams) (eff_heat dt : ℚ) (b : Blob) : ℚ :=
  if b.y < p.heat_zone ∧ 0.01 < eff_heat then
    let proximity := max 0 (1 - b.y / p.heat_zone)
    let mass_scale := 0.6 + 0.8 * (1 - b.mass / 0.007)
    let heat_rate := proximity * proximity * 3.0 * eff_heat * mass_scale * b.wax.heat_sensitivity
    min 1 (b.temperature + heat_rate * dt)
  else b.temperature

/-- Cooling block of `LavaLampEngine.step` (lines 233-238): fast top cooling
above the cool zone, slow ambient cooling between the zones, clamped below
at 0, acting on the already-heated temperature `t1`. -/
def coolT (p : PhysicsParams) (dt t1 : ℚ) (b : Blob) : ℚ :=
  if p.cool_zone < b.y then
    max 0 (t1 - ((b.y - p.cool_zone) / (1 - p.cool_zone)) * p.top_cool_rate * b.wax.heat_sensitivity * dt)
  else if p.heat_zone < b.y then
    max 0 (t1 - p.mid_cool_rate * b.wax.heat_sensitivity * dt)
  else t1

/-- Heat-transfer and cooling section of `LavaLampEngine.step` (lines
225-238): heating then cooling, applied sequentially to `temperature`. -/
def thermalUpdate (p : PhysicsParams) (eff_heat dt : ℚ) (b : Blob) : Blob :=
  { b with temperature := coolT p dt (heatT p eff_heat dt b) b }

/-- Expansion section of `LavaLampEngine.step` (lines 240-244): the radius is
recomputed from the (already updated) temperature via an eased smoothstep of
`temperature / 0.6`, scaled by the wax expansion factor. -/
def expandUpdate (b : Blob) : Blob :=
  let expand_t := max 0 (min 1 (b.temperature / 0.6))
  let expand_eased := expand_t * expand_t * (3 - 2 * expand_t)
  let expansion_range := (b.warm_radius - b.cold_radius) * b.wax.expansion
  { b with radius := b.cold_radius + expansion_range * expand_eased }

/-- Buoyancy / detachment, drag, jitter and Euler integration sections of
`LavaLampEngine.step` (lines 246-270).  `rImp` stands for the draw
`rng.uniform(0, 0.08)` of the detachment impulse, `rDx`/`rDz` for the two
`rng.uniform(-0.5, 0.5)` drift draws; `sqrtFn` stands for `math.sqrt`
(its argument `melt_frac` is formed exactly as in the source). -/
def motionUpdate (sqrtFn : ℚ → ℚ) (p : PhysicsParams) (dt rImp rDx rDz : ℚ) (b : Blob) : Blob :=
  let w := b.wax
  let gravity := (-p.gravity * p.flow_speed) * w.density
  let buoy_max := (p.buoyancy_max * p.flow_speed) / max w.density 0.1
  let b_h_drag := p.h_drag * w.viscosity
  let b_v_drag := p.v_drag * w.viscosity
  let melt_frac := (b.temperature - p.melt_temp) / (1 - p.melt_temp)
  let ramp := sqrtFn melt_frac
  let isMelt := p.melt_temp < b.temperature
  let net_vertical := if isMelt then gravity + ramp * (buoy_max - gravity) else gravity
  let doDetach := isMelt ∧ b.detached = false ∧ 0.35 < ramp
  let vyImp := if doDetach then (0.12 + rImp) / max w.viscosity 0.1 else 0
  let det1 : Bool := if doDetach then true else b.detached
  let vy0 := b.vy + vyImp
  let vx1 := b.vx + (-b_h_drag * b.vx) * dt
  let vy1 := vy0 + (net_vertical - b_v_drag * vy0) * dt
  let vz1 := b.vz + (-b_h_drag * b.vz) * dt
  let drift := if det1 then (0.06 : ℚ) else 0.008
  let vx2 := vx1 + rDx * drift * dt
  let vz2 := vz1 + rDz * drift * dt
  { b with vx := vx2, vy := vy1, vz := vz2,
           x := b.x + vx2 * dt, y := b.y + vy1 * dt, z := b.z + vz2 * dt,
           detached := det1 }

/-- Cylindrical-wall section of `LavaLampEngine.step` (lines 272-283).
`sqrtFn` stands for `math.sqrt` in the horizontal-radius computation. -/
def wallClamp (sqrtFn : ℚ → ℚ) (p : PhysicsParams) (b : Blob) : Blob :=
  let hr := sqrtFn (b.x * b.x + b.z * b.z)
  let max_r := p.wall_radius - b.radius * 0.4
  let hit := max_r < hr ∧ 0.001 < hr
  let nx := b.x / hr
  let nz := b.z / hr
  let vn := b.vx * nx + b.vz * nz
  { b with
    x := if hit then nx * max_r else b.x,
    z := if hit then nz * max_r else b.z,
    vx := if hit ∧ 0 < vn then b.vx - 1.5 * vn * nx else b.vx,
    vz := if hit ∧ 0 < vn then b.vz - 1.5 * vn * nz else b.vz }

/-- Floor / ceiling section of `LavaLampEngine.step` (lines 285-294): the
floor clamp bounces `vy` upward at 15% restitution and forces `detached`
back to `false`; the ceiling clamp (checked second) bounces downward at 25%. -/
def floorCeiling (b : Blob) : Blob :=
  let min_y := b.radius * 0.25
  let max_y := 1 - b.radius * 0.25
  let onFloor := b.y < min_y
  let yf := if onFloor then min_y else b.y
  let vyf := if onFloor then |b.vy| * 0.15 else b.vy
  let detf : Bool := if onFloor then false else b.detached
  { b with
    y := if max_y < yf then max_y else yf,
    vy := if max_y < yf then -|vyf| * 0.25 else vyf,
    detached := detf }

/-- The whole per-blob body of the `for b in self.blobs` loop of
`LavaLampEngine.step` (lines 216-294), in source order. -/
def stepBlob (sqrtFn : ℚ → ℚ) (p : PhysicsParams) (eff_heat dt rImp rDx rDz : ℚ) (b : Blob) : Blob :=
  floorCeiling (wallClamp sqrtFn p (motionUpdate sqrtFn p dt rImp rDx rDz (expandUpdate (thermalUpdate p eff_heat dt b))))

-- ───────────────────────── engine.py: pairwise interaction ─────────────────────────

/-- The `dist` value of `LavaLampEngine._inter_blob_forces` (line 322):
`math.sqrt(dx*dx + dy*dy + dz*dz) or 0.001` — Python's `or` substitutes
`0.001` exactly when the square root is `0.0`. -/
def pairDist (sqrtFn : ℚ → ℚ) (a b : Blob) : ℚ :=
  let dx := b.x - a.x
  let dy := b.y - a.y
  let dz := b.z - a.z
  let s := sqrtFn (dx * dx + dy * dy + dz * dz)
  if s = 0 then 0.001 else s

/-- Close-range block of `_inter_blob_forces` (lines 337-352): hard repulsion
split by mass ratio, plus the thermal-separation vertical nudge when the
temperature gap exceeds 0.1 (the nudge term is `0` otherwise).  The caller
applies this exactly when `dist < 0.7 * combined_radius`. -/
def closePhase (sqrtFn : ℚ → ℚ) (p : PhysicsParams) (a b : Blob) : Blob × Blob :=
  let dist := pairDist sqrtFn a b
  let close_dist := (a.radius + b.radius) * 0.7
  let nx := (b.x - a.x) / dist
  let ny := (b.y - a.y) / dist
  let nz := (b.z - a.z) / dist
  let mr := a.mass / (a.mass + b.mass)
  let overlap := (close_dist - dist) / close_dist
  let force := overlap * p.repulsion_strength
  let temp_diff := a.temperature - b.temperature
  let sep := if 0.1 < |temp_diff| then temp_diff * overlap * p.thermal_separation else 0
  ({ a with vx := a.vx - nx * force * (1 - mr),
            vy := a.vy - ny * force * (1 - mr) + sep,
            vz := a.vz - nz * force * (1 - mr) },
   { b with vx := b.vx + nx * force * mr,
            vy := b.vy + ny * force * mr - sep,
            vz := b.vz + nz * force * mr })

/-- Medium-range block of `_inter_blob_forces` (lines 354-393): quadratic
falloff weight, gentle positional repulsion (vertical axis attenuated ×0.3),
then the velocity-dependent lateral deflection when the pair approaches
(`approach > 0.01`; the deflection term is `0` otherwise).  `fb` stands for
`(cos(angle), sin(angle))` of the random fallback direction drawn when the
lateral axis is degenerate (`lat_len < 0.01`). -/
def mediumPhase (sqrtFn : ℚ → ℚ) (fb : ℚ × ℚ) (p : PhysicsParams) (dt : ℚ) (a b : Blob) : Blob × Blob :=
  let dist := pairDist sqrtFn a b
  let combined_r := a.radius + b.radius
  let close_dist := combined_r * 0.7
  let far_dist := combined_r * p.displacement_range
  let nx := (b.x - a.x) / dist
  let ny := (b.y - a.y) / dist
  let nz := (b.z - a.z) / dist
  let mr := a.mass / (a.mass + b.mass)
  let t := max 0 (min 1 ((far_dist - dist) / (far_dist - close_dist + 0.001)))
  let t2 := t * t
  let pos_force := t2 * p.displacement_strength * 0.3
  let avx := a.vx - nx * pos_force * (1 - mr) * dt
  let avy := a.vy - ny * pos_force * (1 - mr) * dt * 0.3
  let avz := a.vz - nz * pos_force * (1 - mr) * dt
  let bvx := b.vx + nx * pos_force * mr * dt
  let bvy := b.vy + ny * pos_force * mr * dt * 0.3
  let bvz := b.vz + nz * pos_force * mr * dt
  let approach := -((bvx - avx) * nx + (bvy - avy) * ny + (bvz - avz) * nz)
  let lat_x := -nz
  let lat_z := nx
  let lat_len := sqrtFn (lat_x * lat_x + lat_z * lat_z)
  let lx := if lat_len < 0.01 then fb.1 else lat_x / lat_len
  let lz := if lat_len < 0.01 then fb.2 else lat_z / lat_len
  let deflect := if 0.01 < approach then approach * t2 * p.approach_deflection else 0
  ({ a with vx := avx - lx * deflect * (1 - mr), vy := avy, vz := avz - lz * deflect * (1 - mr) },
   { b with vx := bvx + lx * deflect * mr, vy := bvy, vz := bvz + lz * deflect * mr })

/-- The body of `_inter_blob_forces` for one `(i, j)` pair (lines 318-393):
distant pairs (`dist >= far_dist`) are skipped entirely; the close-range
block runs only when `dist < close_dist`; the medium-range block runs for
every non-skipped pair (its falloff weight clamps to 1 below close range). -/
def interPair (sqrtFn : ℚ → ℚ) (fb : ℚ × ℚ) (p : PhysicsParams) (dt : ℚ) (a b : Blob) : Blob × Blob :=
  let dist := pairDist sqrtFn a b
  let combined_r := a.radius + b.radius
  if combined_r * p.displacement_range ≤ dist then (a, b)
  else
    let ab1 := if dist < combined_r * 0.7 then closePhase sqrtFn p a b else (a, b)
    mediumPhase sqrtFn fb p dt ab1.1 ab1.2

/-- Modelled from the spec's wording of §4.1 step 9 (the two interaction tiers
as *disjoint* distance bands): the medium-range block applied **exactly when**
`0.7 × combined_radius ≤ dist < displacement_range × combined_radius`, and
the close-range block alone below that.  For comparison with `interPair`,
which is the translation of the source. -/
def interPairTiered (sqrtFn : ℚ → ℚ) (fb : ℚ × ℚ) (p : PhysicsParams) (dt : ℚ) (a b : Blob) : Blob × Blob :=
  let dist := pairDist sqrtFn a b
  let combined_r := a.radius + b.radius
  if combined_r * p.displacement_range ≤ dist then (a, b)
  else if dist < combined_r * 0.7 then closePhase sqrtFn p a b
  else mediumPhase sqrtFn fb p dt a b

/-- All unordered index pairs `(i, j)` with `i < j < n`, in the loop order of
`_inter_blob_forces` (lines 316-317). -/
def pairIndices (n : ℕ) : List (ℕ × ℕ) :=
  (List.range n).flatMap fun i => ((List.range n).filter fun j => i < j).map fun j => (i, j)

/-- In-place update of blobs `i` and `j` by one pair interaction. -/
def applyPair (sqrtFn : ℚ → ℚ) (fb : ℕ × ℕ → ℚ × ℚ) (p : PhysicsParams) (dt : ℚ)
    (bs : List Blob) (ij : ℕ × ℕ) : List Blob :=
  match bs.get? ij.1, bs.get? ij.2 with
  | some a, some b =>
      let ab := interPair sqrtFn (fb ij) p dt a b
      (bs.set ij.1 ab.1).set ij.2 ab.2
  | _, _ => bs

/-- `LavaLampEngine._inter_blob_forces` (lines 299-393): the double loop over
all unordered blob pairs, mutating the blob list in place pair by pair.
`fb` supplies the random fallback direction for each pair. -/
def interBlobForces (sqrtFn : ℚ → ℚ) (fb : ℕ × ℕ → ℚ × ℚ) (p : PhysicsParams) (dt : ℚ)
    (bs : List Blob) : List Blob :=
  (pairIndices bs.length).foldl (applyPair sqrtFn fb p dt) bs

-- ───────────────────────── engine.py: engine state and operations ─────────────────────────

/-- The mutable state of `LavaLampEngine`: parameters, accumulated warmup
time, and the blob list (the seeded random generator is threaded as explicit
draw parameters of each operation instead). -/
structure EngineState where
  params : PhysicsParams
  warmup_time : ℚ
  blobs : List Blob
deriving DecidableEq

/-- `LavaLampEngine.warmup_fraction` (lines 195-199). -/
def warmupFraction (p : PhysicsParams) (warmup_time : ℚ) : ℚ :=
  if p.warmup_duration ≤ 0 then 1 else min 1 (warmup_time / p.warmup_duration)

/-- `self._inter_blob_forces(dt)` as a state transformer (only `blobs` is
touched). -/
def interForcesState (sqrtFn : ℚ → ℚ) (fb : ℕ × ℕ → ℚ × ℚ) (dt : ℚ) (st : EngineState) : EngineState :=
  { st with blobs := interBlobForces sqrtFn fb st.params dt st.blobs }

/-- Map with a running index, used to hand each blob its own random draws. -/
def mapWithIndex (f : ℕ → Blob → Blob) : ℕ → List Blob → List Blob
  | _, [] => []
  | i, b :: bs => f i b :: mapWithIndex f (i + 1) bs

/-- `LavaLampEngine.step(dt)` (lines 203-297): clamp `dt` to at most 0.05,
accumulate warmup time, ease the warmup fraction into the effective heat,
update every blob in place, then run the pairwise interaction pass.
`rands i` supplies blob `i`'s draws `(uniform(0,0.08), uniform(-0.5,0.5),
uniform(-0.5,0.5))`; `fb` supplies the pairwise fallback directions. -/
def engineStep (sqrtFn : ℚ → ℚ) (rands : ℕ → ℚ × ℚ × ℚ) (fb : ℕ × ℕ → ℚ × ℚ)
    (dt : ℚ) (st : EngineState) : EngineState :=
  let dtc := min dt 0.05
  let wt := st.warmup_time + dtc
  let wf := warmupFraction st.params wt
  let eased_warmup := wf * wf * (3 - 2 * wf)
  let eff := st.params.heat_strength * eased_warmup
  let bs1 := mapWithIndex
    (fun i b => stepBlob sqrtFn st.params eff dtc (rands i).1 (rands i).2.1 (rands i).2.2 b)
    0 st.blobs
  interForcesState sqrtFn fb dtc { st with warmup_time := wt, blobs := bs1 }

/-- `LavaLampEngine.stir(strength)` (lines 397-402): random lateral impulse
on every blob.  `r i = (uniform(-1,1), uniform(-1,1), uniform(-0.3,0.3))`. -/
def stirEngine (r : ℕ → ℚ × ℚ × ℚ) (strength : ℚ) (st : EngineState) : EngineState :=
  let f : ℕ → Blob → Blob := fun i b =>
    { b with vx := b.vx + (r i).1 * strength,
             vz := b.vz + (r i).2.1 * strength,
             vy := b.vy + (r i).2.2 * strength }
  { st with blobs := mapWithIndex f 0 st.blobs }

/-- `LavaLampEngine.heat_burst(strength)` (lines 404-407): instant
temperature boost, clamped at 1. -/
def heatBurst (strength : ℚ) (st : EngineState) : EngineState :=
  { st with blobs := st.blobs.map fun b => { b with temperature := min 1 (b.temperature + strength) } }

/-- Replace the wax of the blob at position `n` (the in-place assignment
`self.blobs[index].wax = ...`). -/
def setWaxAt : List Blob → ℕ → WaxType → List Blob
  | [], _, _ => []
  | b :: bs, 0, w => { b with wax := w } :: bs
  | b :: bs, n + 1, w => b :: setWaxAt bs n w

/-- `LavaLampEngine.set_blob_wax(index, wax_type)` (lines 411-417): silently
ignores an out-of-range index or an unknown preset name (the source logs a
warning and raises no exception — modelled by returning the state unchanged). -/
def setBlobWax (st : EngineState) (index : ℤ) (wax_type : String) : EngineState :=
  if 0 ≤ index ∧ index < (st.blobs.length : ℤ) then
    match findWax WAX_TYPES wax_type with
    | some w => { st with blobs := setWaxAt st.blobs index.toNat w }
    | none => st
  else st

/-- One ring blob of `LavaLampEngine._create_blobs` (lines 170-183), after the
dataclass `__post_init__` and the creator's `cold_radius`/`radius`
overrides.  `cosv`/`sinv` stand for `cos(angle)`/`sin(angle)` of the jittered
ring angle, `us`/`ur`/`uy` for the draws `uniform(0,0.05)`, `uniform(0,0.06)`,
`uniform(0,0.03)`. -/
def createBlob (frac : ℚ) (i : ℕ) (cosv sinv us ur uy : ℚ) : Blob :=
  let spread := 0.04 + us
  let r := 0.10 + ur
  { x := cosv * spread, y := 0.02 + uy, z := sinv * spread,
    vx := 0, vy := 0, vz := 0,
    warm_radius := r, cold_radius := r * frac, radius := r * frac, base_radius := r,
    temperature := 0, mass := r ^ 3, detached := false,
    color := none, hot_color := none, wax := standardWax,
    label := "Blob " ++ toString (i + 1) }

/-- The large pool blob of `_create_blobs` (lines 185-187). -/
def poolBlob (frac : ℚ) : Blob :=
  { x := 0, y := 0.02, z := 0,
    vx := 0, vy := 0, vz := 0,
    warm_radius := 0.19, cold_radius := 0.19 * frac, radius := 0.19 * frac, base_radius := 0.19,
    temperature := 0, mass := (0.19 : ℚ) ^ 3, detached := false,
    color := none, hot_color := none, wax := standardWax, label := "Pool" }

/-- `LavaLampEngine.reset(count)` (lines 159-189): warmup time back to 0 and
a fresh blob list of `count` ring blobs plus the pool blob.  `draws i`
supplies blob `i`'s `(cos(angle), sin(angle), uniform(0,0.05),
uniform(0,0.06), uniform(0,0.03))`. -/
def resetEngine (p : PhysicsParams) (draws : ℕ → ℚ × ℚ × ℚ × ℚ × ℚ) (count : ℕ) : EngineState :=
  { params := p, warmup_time := 0,
    blobs := ((List.range count).map fun i =>
        createBlob p.cold_radius_fraction i (draws i).1 (draws i).2.1 (draws i).2.2.1
          (draws i).2.2.2.1 (draws i).2.2.2.2)
      ++ [poolBlob p.cold_radius_fraction] }

-- ───────────────────────── renderer.py ─────────────────────────

/-- `ColorScheme` (palettes.py), restricted to the fields the renderer reads. -/
structure ColorScheme where
  base : ℚ × ℚ × ℚ
  hot : ℚ × ℚ × ℚ
  liquid : ℚ × ℚ × ℚ
  bg : ℚ × ℚ × ℚ
  contrast : Option (ℚ × ℚ × ℚ)
deriving DecidableEq

/-- `lamp_radius` (renderer.py lines 22-33) at one height value.  `sinpi u`
stands for `np.sin(u * np.pi)`. -/
def lampRadius (sinpi : ℚ → ℚ) (u : ℚ) : ℚ :=
  let bulge := 1 + 0.06 * sinpi u
  let taper := if u < 0.05 then u / 0.05 else if 0.95 < u then (1 - u) / 0.05 else 1
  0.46 * bulge * max taper 0.3

/-- Metaball field accumulation (renderer.py lines 70-91) at one pixel:
returns `(field, weighted_temp, total_weight)` summed over the blob list in
order.  A blob contributes `r² / (d² + 0.001)` only where `d² < 9 r²`. -/
def fieldAt (blobs : List Blob) (x01 blob_y : ℚ) : ℚ × ℚ × ℚ :=
  blobs.foldl
    (fun acc b =>
      let proj_x := b.x * 2
      let proj_y := b.y
      let depth_factor := 1 / (1 + b.z * 0.3)
      let proj_r := b.radius * depth_factor * 3
      let dx := x01 - proj_x
      let dy := blob_y - proj_y
      let dist2 := dx * dx + dy * dy
      let r2 := proj_r * proj_r
      let contribution := if dist2 < r2 * 9 then r2 / (dist2 + 0.001) else 0
      (acc.1 + contribution, acc.2.1 + b.temperature * contribution, acc.2.2 + contribution))
    (0, 0, 0)

/-- One RGBA pixel before the bottom-glow overlay (renderer.py lines 55-143):
wax colouring with brightness bonus, edge shading and specular highlight;
liquid colouring with field glow; transparent outside the lamp silhouette. -/
def basePixel (sinpi : ℚ → ℚ) (blobs : List Blob) (scheme : ColorScheme)
    (rh rw py px : ℕ) : ℤ × ℤ × ℤ × ℤ :=
  let y01 : ℚ := (py : ℚ) / (rh : ℚ)
  let blob_y := 1 - y01
  let x01 := ((px : ℚ) / (rw : ℚ) - 0.5) * 2
  let lamp_r := lampRadius sinpi (1 - y01)
  let inside_lamp := |x01| < lamp_r * 2
  let acc := fieldAt blobs x01 blob_y
  let field := acc.1
  let weighted_temp := acc.2.1
  let total_weight := acc.2.2
  let is_wax := 1 < field ∧ inside_lamp
  let temp := if 0 < total_weight then weighted_temp / max total_weight (1 / 10000000000) else 0
  let bright := min 1 (max 0 ((field - 1) * 0.5))
  let edge_dist := |x01| / max (lamp_r * 2) 0.01
  let shade := 1 - edge_dist * edge_dist * 0.4
  let spec := max 0 (1 - |x01 + lamp_r * 0.6| / max (lamp_r * 0.8) 0.01)
  let spec_pow := spec * spec * spec * 0.3
  let waxC := fun (base_c hot_c t1_c t2_c : ℚ) =>
    toU8 (min 255 ((min 255 (base_c + (hot_c - base_c) * temp + bright * t1_c)) * shade
      + spec_pow * t2_c))
  let glow := min 1 (max 0 (field * 0.3))
  let liqC := fun (liq_c base_c : ℚ) => toU8 ((liq_c + glow * base_c * 0.3) * shade)
  if is_wax then
    (waxC scheme.base.1 scheme.hot.1 50 200,
     waxC scheme.base.2.1 scheme.hot.2.1 60 150,
     waxC scheme.base.2.2 scheme.hot.2.2 30 80, 255)
  else if inside_lamp then
    (liqC scheme.liquid.1 scheme.base.1,
     liqC scheme.liquid.2.1 scheme.base.2.1,
     liqC scheme.liquid.2.2 scheme.base.2.2, 255)
  else (0, 0, 0, 0)

/-- The additive glow blend of renderer.py lines 157-159 on one pixel:
`min(255, int(channel + base_channel * ga))` on each colour channel, alpha
untouched. -/
def overlayPixel (scheme : ColorScheme) (ga : ℚ) (c : ℤ × ℤ × ℤ × ℤ) : ℤ × ℤ × ℤ × ℤ :=
  (min 255 (truncInt ((c.1 : ℚ) + scheme.base.1 * ga)),
   min 255 (truncInt ((c.2.1 : ℚ) + scheme.base.2.1 * ga)),
   min 255 (truncInt ((c.2.2.1 : ℚ) + scheme.base.2.2 * ga)),
   c.2.2.2)

/-- One RGBA pixel after the bottom heat-glow overlay (renderer.py lines
145-159): inside the bottom 15% of rows, where the elliptical glow mask is
hit and the pixel is not transparent, the scheme's base colour is blended in
additively (truncated to int, capped at 255). -/
def pixelAt (sinpi : ℚ → ℚ) (blobs : List Blob) (warmup : ℚ) (scheme : ColorScheme)
    (rh rw py px : ℕ) : ℤ × ℤ × ℤ × ℤ :=
  let base_px := basePixel sinpi blobs scheme rh rw py px
  let glow_alpha := 0.03 + warmup * 0.18
  let gl := truncInt ((rh : ℚ) * 0.15)
  let start := rh - gl.toNat
  let gy := ((py : ℚ) - ((rh : ℚ) - (gl : ℚ))) / ((max gl 1 : ℤ) : ℚ)
  let gx := ((px : ℚ) / (rw : ℚ) - 0.5) * 2
  let gdist := gx * gx + gy * gy * 0.5
  if start ≤ py ∧ py < rh ∧ gdist < 1 ∧ 0 < base_px.2.2.2 then
    overlayPixel scheme (glow_alpha * (1 - gdist)) base_px
  else base_px

/-- The RGBA buffer returned by `render_frame`: its two dimensions and the
pixel values, indexed row-major as `pix row col`. -/
structure Image where
  rh : ℕ
  rw : ℕ
  pix : ℕ → ℕ → ℤ × ℤ × ℤ × ℤ

/-- `render_frame(engine, scheme, width, height, render_scale)` (renderer.py
lines 36-161) as a function of the engine data it reads: the blob list and
the warmup fraction.  The render resolution is `max(4, int(dim * scale))`. -/
def renderFrame (sinpi : ℚ → ℚ) (blobs : List Blob) (warmup : ℚ) (scheme : ColorScheme)
    (width height : ℕ) (render_scale : ℚ) : Image :=
  let rw_ := max 4 (truncInt ((width : ℚ) * render_scale)).toNat
  let rh_ := max 4 (truncInt ((height : ℚ) * render_scale)).toNat
  { rh := rh_, rw := rw_, pix := fun py px => pixelAt sinpi blobs warmup scheme rh_ rw_ py px }

/-- A call of `render_frame` on an engine: the source function only *reads*
`engine.blobs` and `engine.warmup_fraction` (and assigns to no engine or
blob attribute), so a call is modelled as the pure pair of the produced
image and the untouched engine state. -/
def renderCall (sinpi : ℚ → ℚ) (st : EngineState) (scheme : ColorScheme)
    (width height : ℕ) (render_scale : ℚ) : Image × EngineState :=
  (renderFrame sinpi st.blobs (warmupFraction st.params st.warmup_time) scheme width height render_scale, st)

-- ───────────────────────── helper lemmas ─────────────────────────

/-- All blob fields except the three velocity components, bundled so that
"this operation touches only velocities" is a single equation. -/
structure BlobCore where
  x : ℚ
  y : ℚ
  z : ℚ
  warm_radius : ℚ
  cold_radius : ℚ
  radius : ℚ
  base_radius : ℚ
  temperature : ℚ
  mass : ℚ
  detached : Bool
  color : Option (ℤ × ℤ × ℤ)
  hot_color : Option (ℤ × ℤ × ℤ)
  wax : WaxType
  label : String
deriving DecidableEq

/-- Projection of a blob to its non-velocity fields. -/
def nonVel (b : Blob) : BlobCore :=
  ⟨b.x, b.y, b.z, b.warm_radius, b.cold_radius, b.radius, b.base_radius,
   b.temperature, b.mass, b.detached, b.color, b.hot_color, b.wax, b.label⟩

lemma closePhase_nonVel (sq : ℚ → ℚ) (p : PhysicsParams) (a b : Blob) :
    nonVel (closePhase sq p a b).1 = nonVel a ∧ nonVel (closePhase sq p a b).2 = nonVel b :=
  ⟨rfl, rfl⟩

lemma mediumPhase_nonVel (sq : ℚ → ℚ) (fb : ℚ × ℚ) (p : PhysicsParams) (dt : ℚ) (a b : Blob) :
    nonVel (mediumPhase sq fb p dt a b).1 = nonVel a
    ∧ nonVel (mediumPhase sq fb p dt a b).2 = nonVel b :=
  ⟨rfl, rfl⟩

lemma interPair_nonVel (sq : ℚ → ℚ) (fb : ℚ × ℚ) (p : PhysicsParams) (dt : ℚ) (a b : Blob) :
    nonVel (interPair sq fb p dt a b).1 = nonVel a
    ∧ nonVel (interPair sq fb p dt a b).2 = nonVel b := by
  simp only [interPair]
  split
  · exact ⟨rfl, rfl⟩
  · split
    · exact ⟨rfl, rfl⟩
    · exact ⟨rfl, rfl⟩

lemma get?_map_eq {α β : Type} (f : α → β) :
    ∀ (l : List α) (n : ℕ), (l.map f).get? n = (l.get? n).map f
  | [], _ => rfl
  | _ :: _, 0 => rfl
  | _ :: l, n + 1 => get?_map_eq f l n

lemma map_set_eq {α β : Type} (f : α → β) :
    ∀ (l : List α) (n : ℕ) (x : α), (l.set n x).map f = (l.map f).set n (f x)
  | [], _, _ => rfl
  | _ :: _, 0, _ => rfl
  | a :: l, n + 1, x => by simp only [List.set, List.map, map_set_eq f l n x]

lemma set_get?_self {α : Type} :
    ∀ (l : List α) (n : ℕ) (x : α), l.get? n = some x → l.set n x = l
  | [], _, _, h => by cases h
  | a :: l, 0, x, h => by
      simp only [List.get?] at h
      simp only [List.set, Option.some.injEq] at h ⊢
      rw [h]
  | a :: l, n + 1, x, h => by
      simp only [List.get?] at h
      show a :: l.set n x = a :: l
      rw [set_get?_self l n x h]

lemma applyPair_map_nonVel (sq : ℚ → ℚ) (fb : ℕ × ℕ → ℚ × ℚ) (p : PhysicsParams) (dt : ℚ)
    (bs : List Blob) (ij : ℕ × ℕ) :
    (applyPair sq fb p dt bs ij).map nonVel = bs.map nonVel := by
  unfold applyPair
  cases h1 : bs.get? ij.1 with
  | none => cases h2 : bs.get? ij.2 <;> rfl
  | some a =>
    cases h2 : bs.get? ij.2 with
    | none => rfl
    | some b =>
      simp only
      rw [map_set_eq, map_set_eq, (interPair_nonVel sq (fb ij) p dt a b).1,
        (interPair_nonVel sq (fb ij) p dt a b).2]
      rw [set_get?_self (bs.map nonVel) ij.1 (nonVel a)
        (by rw [get?_map_eq, h1]; rfl)]
      exact set_get?_self (bs.map nonVel) ij.2 (nonVel b) (by rw [get?_map_eq, h2]; rfl)

lemma foldl_applyPair_map_nonVel (sq : ℚ → ℚ) (fb : ℕ × ℕ → ℚ × ℚ) (p : PhysicsParams) (dt : ℚ) :
    ∀ (ps : List (ℕ × ℕ)) (bs : List Blob),
      ((ps.foldl (applyPair sq fb p dt) bs).map nonVel) = bs.map nonVel
  | [], _ => rfl
  | ij :: ps, bs => by
      rw [List.foldl_cons]
      exact (foldl_applyPair_map_nonVel sq fb p dt ps _).trans
        (applyPair_map_nonVel sq fb p dt bs ij)

lemma interBlobForces_map_nonVel (sq : ℚ → ℚ) (fb : ℕ × ℕ → ℚ × ℚ) (p : PhysicsParams)
    (dt : ℚ) (bs : List Blob) :
    (interBlobForces sq fb p dt bs).map nonVel = bs.map nonVel :=
  foldl_applyPair_map_nonVel sq fb p dt (pairIndices bs.length) bs

lemma map_eq_mem_exists {α β : Type} {f : α → β} {l1 l2 : List α}
    (h : l1.map f = l2.map f) {x : α} (hx : x ∈ l1) : ∃ y ∈ l2, f x = f y := by
  have hm : f x ∈ l2.map f := h ▸ List.mem_map_of_mem f hx
  rcases List.mem_map.mp hm with ⟨y, hy, hfy⟩
  exact ⟨y, hy, hfy.symm⟩

lemma mem_mapWithIndex {f : ℕ → Blob → Blob} :
    ∀ {bs : List Blob} {i : ℕ} {b' : Blob},
      b' ∈ mapWithIndex f i bs → ∃ j b, b ∈ bs ∧ b' = f j b := by
  intro bs
  induction bs with
  | nil => intro i b' h; cases h
  | cons hd tl ih =>
      intro i b' h
      rcases List.mem_cons.mp h with h | h
      · exact ⟨i, hd, List.mem_cons_self hd tl, h⟩
      · rcases ih h with ⟨j, b, hb, rfl⟩
        exact ⟨j, b, List.mem_cons_of_mem hd hb, rfl⟩

-- ───────────────────────── C10, C3, C4 ─────────────────────────

/-- **C10.** The pairwise-interaction pass modifies only the blob velocity
components: the image of the blob list under the non-velocity projection is
unchanged (so every blob's position, temperature, radius, warm/cold radii,
mass, detached flag, material, colours and label are identical before and
after the pass), and the pass leaves the engine parameters and the warmup
time untouched. -/
theorem c10_interaction_frame (sq : ℚ → ℚ) (fb : ℕ × ℕ → ℚ × ℚ) (p : PhysicsParams) (dt : ℚ)
    (bs : List Blob) (st : EngineState) :
    (interBlobForces sq fb p dt bs).map nonVel = bs.map nonVel
    ∧ (interForcesState sq fb dt st).params = st.params
    ∧ (interForcesState sq fb dt st).warmup_time = st.warmup_time :=
  ⟨interBlobForces_map_nonVel sq fb p dt bs, rfl, rfl⟩

/-- **C3.** A pair of blobs whose centre distance is at least
`displacement_range × (radiusA + radiusB)` is skipped by the interaction
body: both blobs come out *exactly* unchanged (in particular neither
velocity component moves at all). -/
theorem c3_zero_force (sq : ℚ → ℚ) (fb : ℚ × ℚ) (p : PhysicsParams) (dt : ℚ) (a b : Blob)
    (hfar : 0 < (a.radius + b.radius) * p.displacement_range)
    (hdist : (a.radius + b.radius) * p.displacement_range ≤
      sq ((b.x - a.x) * (b.x - a.x) + (b.y - a.y) * (b.y - a.y) + (b.z - a.z) * (b.z - a.z))) :
    interPair sq fb p dt a b = (a, b) := by
  have hpos : 0 < sq ((b.x - a.x) * (b.x - a.x) + (b.y - a.y) * (b.y - a.y)
      + (b.z - a.z) * (b.z - a.z)) := lt_of_lt_of_le hfar hdist
  have hd : pairDist sq a b = sq ((b.x - a.x) * (b.x - a.x) + (b.y - a.y) * (b.y - a.y)
      + (b.z - a.z) * (b.z - a.z)) := by
    simp only [pairDist]
    rw [if_neg (ne_of_gt hpos)]
  simp only [interPair, hd]
  rw [if_pos hdist]

def c3a : Blob :=
  { x := 0, y := 0.5, z := 0, vx := 0, vy := 0, vz := 0,
    warm_radius := 0.1, cold_radius := 0.035, radius := 0.1, base_radius := 0.1,
    temperature := 0, mass := (0.1 : ℚ) ^ 3, detached := false,
    color := none, hot_color := none, wax := standardWax, label := "" }

def c3b : Blob :=
  { c3a with x := 1, temperature := 1 }

theorem c3_zero_force_witness :
    interPair (fun q => if q = 1 then 1 else 0) (0, 0) defaultParams 0.05 c3a c3b = (c3a, c3b) :=
  c3_zero_force _ _ _ _ _ _ (by norm_num [c3a, c3b, defaultParams])
    (by norm_num [c3a, c3b, defaultParams])

/-- **C4 (amended).** Structure of the two interaction tiers in the source:
for a non-skipped pair (`dist < displacement_range × combined_radius`) the
close-range block applies exactly when `dist < 0.7 × combined_radius`, while
the medium-range block (positional repulsion and approach deflection)
applies to *every* non-skipped pair — below close range as well (where its
falloff weight clamps to 1) — not only on `0.7 × combined ≤ dist`. -/
theorem c4_tier_structure (sq : ℚ → ℚ) (fb : ℚ × ℚ) (p : PhysicsParams) (dt : ℚ) (a b : Blob) :
    (pairDist sq a b < (a.radius + b.radius) * p.displacement_range →
      ¬ pairDist sq a b < (a.radius + b.radius) * 0.7 →
      interPair sq fb p dt a b = mediumPhase sq fb p dt a b)
    ∧ (pairDist sq a b < (a.radius + b.radius) * p.displacement_range →
      pairDist sq a b < (a.radius + b.radius) * 0.7 →
      interPair sq fb p dt a b =
        mediumPhase sq fb p dt (closePhase sq p a b).1 (closePhase sq p a b).2) := by
  constructor
  · intro h1 h2
    simp only [interPair]
    rw [if_neg (not_le.mpr h1), if_neg h2]
  · intro h1 h2
    simp only [interPair]
    rw [if_neg (not_le.mpr h1), if_pos h2]

def c4a : Blob := c3a

def c4b : Blob := { c3a with x := 0.05 }

def c4sqrt : ℚ → ℚ := fun q => if q = 0.0025 then 0.05 else if q = 1 then 1 else 0

theorem c4_tier_structure_witness :
    interPair c4sqrt (0, 0) defaultParams 0.05 c4a c4b =
      mediumPhase c4sqrt (0, 0) defaultParams 0.05 (closePhase c4sqrt defaultParams c4a c4b).1
        (closePhase c4sqrt defaultParams c4a c4b).2 :=
  (c4_tier_structure c4sqrt (0, 0) defaultParams 0.05 c4a c4b).2
    (by norm_num [pairDist, c4a, c4b, c3a, c4sqrt, defaultParams])
    (by norm_num [pairDist, c4a, c4b, c3a, c4sqrt, defaultParams])

/-- **C4, claim as stated is false.** At a concrete overlapping pair
(distance `0.05`, combined radius `0.2`, so `dist < 0.7 × combined`), the
source's interaction body does *not* coincide with the spec-worded disjoint
tiers: the medium-range positional repulsion is applied on top of the
close-range repulsion, so the resulting `vx` differs. -/
theorem c4_disjoint_cex :
    (interPair c4sqrt (0, 0) defaultParams 0.05 c4a c4b).1.vx ≠
      (interPairTiered c4sqrt (0, 0) defaultParams 0.05 c4a c4b).1.vx := by
  norm_num [interPair, interPairTiered, mediumPhase, closePhase, pairDist,
    c4a, c4b, c3a, c4sqrt, defaultParams, standardWax, min_def, max_def, abs_eq_max_neg]

-- ───────────────────────── C6: dt clamping ─────────────────────────

/-- **C6.** `step(dt)` first clamps `dt` to 0.05, so for any `dt > 0.05` the
whole post-state (every blob field and the accumulated warmup time) is
exactly that of `step(0.05)` from the same pre-state with the same random
draws, and the warmup time grows by exactly 0.05. -/
theorem c6_dt_clamp (sq : ℚ → ℚ) (rands : ℕ → ℚ × ℚ × ℚ) (fb : ℕ × ℕ → ℚ × ℚ)
    (dt : ℚ) (st : EngineState) (h : 0.05 < dt) :
    engineStep sq rands fb dt st = engineStep sq rands fb 0.05 st
    ∧ (engineStep sq rands fb dt st).warmup_time = st.warmup_time + 0.05 := by
  have hmin : min dt (0.05 : ℚ) = 0.05 := min_eq_right h.le
  constructor
  · unfold engineStep
    rw [hmin, min_self]
  · simp only [engineStep, interForcesState, hmin]

def c6St : EngineState := { params := defaultParams, warmup_time := 0, blobs := [] }

theorem c6_dt_clamp_witness :
    engineStep (fun _ => 0) (fun _ => (0, 0, 0)) (fun _ => (0, 0)) 1 c6St
      = engineStep (fun _ => 0) (fun _ => (0, 0, 0)) (fun _ => (0, 0)) 0.05 c6St
    ∧ (engineStep (fun _ => 0) (fun _ => (0, 0, 0)) (fun _ => (0, 0)) 1 c6St).warmup_time
      = c6St.warmup_time + 0.05 :=
  c6_dt_clamp _ _ _ _ _ (by norm_num)

-- ───────────────────────── C9: set_blob_wax ─────────────────────────

lemma setWaxAt_get?_eq : ∀ (l : List Blob) (n : ℕ) (w : WaxType),
    (setWaxAt l n w).get? n = (l.get? n).map fun b => { b with wax := w }
  | [], _, _ => rfl
  | _ :: _, 0, _ => rfl
  | _ :: l, n + 1, w => setWaxAt_get?_eq l n w

lemma setWaxAt_get?_ne : ∀ (l : List Blob) (n k : ℕ) (w : WaxType), k ≠ n →
    (setWaxAt l n w).get? k = l.get? k
  | [], _, _, _, _ => rfl
  | _ :: _, 0, 0, _, h => absurd rfl h
  | _ :: _, 0, _ + 1, _, _ => rfl
  | _ :: _, _ + 1, 0, _, _ => rfl
  | _ :: l, n + 1, k + 1, w, h => setWaxAt_get?_ne l n k w (fun hk => h (by rw [hk]))

/-- **C9.** `set_blob_wax` with an out-of-range index or an unknown preset
name leaves the engine state entirely unchanged (the source logs and raises
nothing; the model is total).  With an in-range index and a known preset it
replaces exactly that blob's material reference: parameters and warmup time
are untouched, every other blob is untouched, and the target blob differs
only in its `wax` field. -/
theorem c9_set_material (st : EngineState) (i : ℤ) (nm : String) :
    ((¬ (0 ≤ i ∧ i < (st.blobs.length : ℤ)) ∨ findWax WAX_TYPES nm = none) →
      setBlobWax st i nm = st)
    ∧ ∀ w : WaxType, (0 ≤ i ∧ i < (st.blobs.length : ℤ)) → findWax WAX_TYPES nm = some w →
      (setBlobWax st i nm).params = st.params
      ∧ (setBlobWax st i nm).warmup_time = st.warmup_time
      ∧ (∀ k : ℕ, k ≠ i.toNat → (setBlobWax st i nm).blobs.get? k = st.blobs.get? k)
      ∧ (setBlobWax st i nm).blobs.get? i.toNat
          = (st.blobs.get? i.toNat).map fun b => { b with wax := w } := by
  constructor
  · intro h
    unfold setBlobWax
    by_cases hr : 0 ≤ i ∧ i < (st.blobs.length : ℤ)
    · rw [if_pos hr]
      rcases h with h | h
      · exact absurd hr h
      · rw [h]
    · rw [if_neg hr]
  · intro w hr hw
    unfold setBlobWax
    rw [if_pos hr, hw]
    exact ⟨rfl, rfl, fun k hk => setWaxAt_get?_ne _ _ _ _ hk, setWaxAt_get?_eq _ _ _⟩

def c9St : EngineState := { params := defaultParams, warmup_time := 3, blobs := [c3a, c4b] }

theorem c9_set_material_witness :
    (setBlobWax c9St 1 "heavy").blobs.get? 1 = some { c4b with wax := heavyWax }
    ∧ (setBlobWax c9St 1 "heavy").blobs.get? 0 = c9St.blobs.get? 0 := by
  have h := (c9_set_material c9St 1 "heavy").2 heavyWax
    (by constructor <;> norm_num [c9St])
    (by simp [findWax, WAX_TYPES])
  refine ⟨?_, h.2.2.1 0 (by decide)⟩
  have h2 := h.2.2.2
  simpa [c9St] using h2

-- ───────────────────────── C8: detached → grounded only at the floor ─────────────────────────

/-- **C8.** Within a step, the `detached` flag is cleared only by the
floor-clamp branch, and that branch fires whenever `y` drops below the floor
bound `radius × 0.25`: the blob is put back on the floor with its vertical
velocity bounced upward at 15% restitution and `detached := false`.  No
other stage of the per-blob update, and neither side of the pairwise
interaction, changes `detached` from `true` to `false` (the buoyancy stage
can only set it). -/
theorem c8_detached_only_floor (sq : ℚ → ℚ) (fb : ℚ × ℚ) (p : PhysicsParams)
    (eff dt rImp rDx rDz : ℚ) (a b : Blob) :
    (b.y < b.radius * 0.25 → b.radius * 0.25 ≤ 1 - b.radius * 0.25 →
      floorCeiling b = { b with y := b.radius * 0.25, vy := |b.vy| * 0.15, detached := false })
    ∧ (¬ b.y < b.radius * 0.25 → (floorCeiling b).detached = b.detached)
    ∧ (thermalUpdate p eff dt b).detached = b.detached
    ∧ (expandUpdate b).detached = b.detached
    ∧ ((motionUpdate sq p dt rImp rDx rDz b).detached = false → b.detached = false)
    ∧ (wallClamp sq p b).detached = b.detached
    ∧ (interPair sq fb p dt a b).1.detached = a.detached
    ∧ (interPair sq fb p dt a b).2.detached = b.detached := by
  refine ⟨?_, ?_, rfl, rfl, ?_, rfl, ?_, ?_⟩
  · intro h1 h2
    simp only [floorCeiling, if_pos h1, if_neg (not_lt.mpr h2)]
  · intro h
    simp only [floorCeiling, if_neg h]
  · intro h
    unfold motionUpdate at h
    dsimp only at h
    split at h
    · cases h
    · exact h
  · exact congrArg BlobCore.detached (interPair_nonVel sq fb p dt a b).1
  · exact congrArg BlobCore.detached (interPair_nonVel sq fb p dt a b).2

def c8b : Blob := { c3a with y := 0.01, vy := -2, detached := true }

theorem c8_detached_only_floor_witness :
    floorCeiling c8b = { c8b with y := c8b.radius * 0.25, vy := |c8b.vy| * 0.15, detached := false } :=
  (c8_detached_only_floor (fun _ => 0) (0, 0) defaultParams 0 0 0 0 0 c8b c8b).1
    (by norm_num [c8b, c3a]) (by norm_num [c8b, c3a])

-- ───────────────────────── C1: radius bounds ─────────────────────────

lemma expandUpdate_radius_bounds (b : Blob) (hcw : b.cold_radius ≤ b.warm_radius)
    (he : 0 ≤ b.wax.expansion) :
    b.cold_radius ≤ (expandUpdate b).radius
    ∧ (expandUpdate b).radius ≤ b.cold_radius + (b.warm_radius - b.cold_radius) * b.wax.expansion := by
  unfold expandUpdate
  dsimp only
  set u := max (0 : ℚ) (min 1 (b.temperature / 0.6)) with hu
  have h0 : 0 ≤ u := le_max_left _ _
  have h1 : u ≤ 1 := max_le (by norm_num) (min_le_left _ _)
  have heased0 : 0 ≤ u * u * (3 - 2 * u) := by nlinarith
  have heased1 : u * u * (3 - 2 * u) ≤ 1 := by nlinarith [sq_nonneg (1 - u)]
  have hr : 0 ≤ (b.warm_radius - b.cold_radius) * b.wax.expansion :=
    mul_nonneg (by linarith) he
  constructor
  · nlinarith [mul_nonneg hr heased0]
  · nlinarith [mul_le_mul_of_nonneg_left heased1 hr]

lemma stepBlob_radius_bounds (sq : ℚ → ℚ) (p : PhysicsParams) (eff dtv r1 r2 r3 : ℚ)
    (b : Blob) (hcw : b.cold_radius ≤ b.warm_radius) (he : 0 ≤ b.wax.expansion) :
    b.cold_radius ≤ (stepBlob sq p eff dtv r1 r2 r3 b).radius
    ∧ (stepBlob sq p eff dtv r1 r2 r3 b).radius
        ≤ b.cold_radius + (b.warm_radius - b.cold_radius) * b.wax.expansion := by
  have hr : (stepBlob sq p eff dtv r1 r2 r3 b).radius
      = (expandUpdate (thermalUpdate p eff dtv b)).radius := rfl
  rw [hr]
  exact expandUpdate_radius_bounds (thermalUpdate p eff dtv b) hcw he

lemma mapWithIndex_length (f : ℕ → Blob → Blob) :
    ∀ (i : ℕ) (bs : List Blob), (mapWithIndex f i bs).length = bs.length
  | _, [] => rfl
  | i, _ :: bs => congrArg Nat.succ (mapWithIndex_length f (i + 1) bs)

lemma interBlobForces_length (sq : ℚ → ℚ) (fb : ℕ × ℕ → ℚ × ℚ) (p : PhysicsParams)
    (dtv : ℚ) (bs : List Blob) : (interBlobForces sq fb p dtv bs).length = bs.length := by
  have h := congrArg List.length (interBlobForces_map_nonVel sq fb p dtv bs)
  simpa using h

lemma engineStep_blobs_length (sq : ℚ → ℚ) (rands : ℕ → ℚ × ℚ × ℚ) (fb : ℕ × ℕ → ℚ × ℚ)
    (dt : ℚ) (st : EngineState) :
    (engineStep sq rands fb dt st).blobs.length = st.blobs.length := by
  unfold engineStep interForcesState
  dsimp only
  rw [interBlobForces_length, mapWithIndex_length]

/-- Every blob of a stepped engine arises, up to its velocity components,
as `stepBlob` of some original blob (for some effective-heat, clamped-dt and
random-draw values). -/
lemma engineStep_blobs_exists (sq : ℚ → ℚ) (rands : ℕ → ℚ × ℚ × ℚ) (fb : ℕ × ℕ → ℚ × ℚ)
    (dt : ℚ) (st : EngineState) {b' : Blob} (hb' : b' ∈ (engineStep sq rands fb dt st).blobs) :
    ∃ (eff r1 r2 r3 : ℚ) (b0 : Blob), b0 ∈ st.blobs
      ∧ nonVel b' = nonVel (stepBlob sq st.params eff (min dt 0.05) r1 r2 r3 b0) := by
  unfold engineStep interForcesState at hb'
  dsimp only at hb'
  rcases map_eq_mem_exists (interBlobForces_map_nonVel _ _ _ _ _) hb' with ⟨y, hy, hnv⟩
  rcases mem_mapWithIndex hy with ⟨j, b0, hb0, rfl⟩
  exact ⟨_, _, _, _, b0, hb0, hnv⟩

/-- **C1 (amended).** After any `step(dt)` call, every blob's radius lies in
`[cold_radius, cold_radius + (warm_radius - cold_radius) × wax.expansion]`
(provided `cold_radius ≤ warm_radius` and the material's expansion factor is
nonnegative, as for every preset).  For materials with `expansion ≤ 1` this
interval is contained in the claimed `[cold_radius, warm_radius]`; materials
with `expansion > 1` (light, volatile, giant) exceed `warm_radius` at high
temperature. -/
theorem c1_radius_bounds_amended (sq : ℚ → ℚ) (rands : ℕ → ℚ × ℚ × ℚ) (fb : ℕ × ℕ → ℚ × ℚ)
    (dt : ℚ) (st : EngineState)
    (hb : ∀ b ∈ st.blobs, b.cold_radius ≤ b.warm_radius ∧ 0 ≤ b.wax.expansion) :
    ∀ b' ∈ (engineStep sq rands fb dt st).blobs,
      b'.cold_radius ≤ b'.radius
      ∧ b'.radius ≤ b'.cold_radius + (b'.warm_radius - b'.cold_radius) * b'.wax.expansion := by
  intro b' hb'
  rcases engineStep_blobs_exists sq rands fb dt st hb' with ⟨eff, r1, r2, r3, b0, hb0, hnv⟩
  have hs := stepBlob_radius_bounds sq st.params eff (min dt 0.05) r1 r2 r3 b0 (hb b0 hb0).1 (hb b0 hb0).2
  have e1 : b'.cold_radius = b0.cold_radius := congrArg BlobCore.cold_radius hnv
  have e2 : b'.radius = (stepBlob sq st.params eff (min dt 0.05) r1 r2 r3 b0).radius :=
    congrArg BlobCore.radius hnv
  have e3 : b'.warm_radius = b0.warm_radius := congrArg BlobCore.warm_radius hnv
  have e4 : b'.wax = b0.wax := congrArg BlobCore.wax hnv
  rw [e1, e2, e3, e4]
  exact hs

lemma getD_zero_mem {α : Type} (d : α) : ∀ (l : List α), l ≠ [] → l.getD 0 d ∈ l
  | [], h => absurd rfl h
  | a :: l, _ => List.mem_cons_self a l

def c1WSt : EngineState := { params := defaultParams, warmup_time := 0, blobs := [c3a] }

def c1WRes : Blob :=
  (engineStep (fun _ => 0) (fun _ => (0, 0, 0)) (fun _ => (0, 0)) 0 c1WSt).blobs.getD 0 c3a

theorem c1_radius_bounds_amended_witness :
    c1WRes.cold_radius ≤ c1WRes.radius
    ∧ c1WRes.radius ≤ c1WRes.cold_radius
        + (c1WRes.warm_radius - c1WRes.cold_radius) * c1WRes.wax.expansion := by
  have hne : (engineStep (fun _ => 0) (fun _ => (0, 0, 0)) (fun _ => (0, 0)) 0 c1WSt).blobs ≠ [] := by
    have hl : (engineStep (fun _ => 0) (fun _ => (0, 0, 0)) (fun _ => (0, 0)) 0 c1WSt).blobs.length = 1 := by
      rw [engineStep_blobs_length]
      rfl
    intro h
    rw [h] at hl
    cases hl
  refine c1_radius_bounds_amended _ _ _ _ _ ?_ c1WRes (getD_zero_mem _ _ hne)
  intro b hbm
  rcases List.mem_singleton.mp hbm with rfl
  norm_num [c3a, standardWax]

lemma pairIndices_one : pairIndices 1 = [] := by decide

lemma interBlobForces_single (sq : ℚ → ℚ) (fb : ℕ × ℕ → ℚ × ℚ) (p : PhysicsParams)
    (dtv : ℚ) (b : Blob) : interBlobForces sq fb p dtv [b] = [b] := by
  unfold interBlobForces
  simp only [List.length_singleton, pairIndices_one, List.foldl_nil]

/-- A blob as it stands after `set_blob_wax(0, "volatile")` and a
`heat_burst(1.0)`: volatile material (expansion 1.5) and temperature 1. -/
def c1Blob : Blob :=
  { x := 0, y := 0.5, z := 0, vx := 0, vy := 0, vz := 0,
    warm_radius := 0.12, cold_radius := 0.042, radius := 0.042, base_radius := 0.12,
    temperature := 1, mass := (0.12 : ℚ) ^ 3, detached := true,
    color := none, hot_color := none, wax := volatileWax, label := "" }

def c1CexSt : EngineState := { params := defaultParams, warmup_time := 0, blobs := [c1Blob] }

/-- **C1, claim as stated is false.** One `step` on a blob whose material was
switched to the volatile preset (expansion 1.5) at temperature 1 yields
radius `0.159 > warm_radius = 0.12`: the radius leaves the claimed interval
`[cold_radius, warm_radius]`. -/
theorem c1_radius_claim_cex :
    ((engineStep (fun _ => 0) (fun _ => (0, 0, 0)) (fun _ => (0, 0)) 0 c1CexSt).blobs.getD 0 c1Blob).warm_radius
      < ((engineStep (fun _ => 0) (fun _ => (0, 0, 0)) (fun _ => (0, 0)) 0 c1CexSt).blobs.getD 0 c1Blob).radius := by
  have hstep : engineStep (fun _ => 0) (fun _ => (0, 0, 0)) (fun _ => (0, 0)) 0 c1CexSt
      = { params := defaultParams, warmup_time := 0,
          blobs := [{ c1Blob with radius := 0.159 }] } := by
    norm_num [engineStep, interForcesState, warmupFraction, mapWithIndex, stepBlob,
      thermalUpdate, heatT, coolT, expandUpdate, motionUpdate, wallClamp, floorCeiling,
      c1CexSt, c1Blob, volatileWax, defaultParams, min_def, max_def, abs_eq_max_neg,
      interBlobForces_single]
  rw [hstep]
  norm_num [c1Blob]

-- ───────────────────────── C2: temperature invariant ─────────────────────────

/-- The step-invariant blob properties needed for the temperature bounds:
temperature in `[0,1]`, nonnegative heat sensitivity, and mass at most 0.007
(so the heating mass scale `0.6 + 0.8(1 - mass/0.007)` is nonnegative).
Every blob created by `reset` satisfies them. -/
def GoodBlob (b : Blob) : Prop :=
  0 ≤ b.temperature ∧ b.temperature ≤ 1 ∧ 0 ≤ b.wax.heat_sensitivity ∧ b.mass ≤ 0.007

lemma heatT_bounds (p : PhysicsParams) (eff dtv : ℚ) (hdt : 0 ≤ dtv) (b : Blob)
    (h0 : 0 ≤ b.temperature) (h1 : b.temperature ≤ 1)
    (hs : 0 ≤ b.wax.heat_sensitivity) (hm : b.mass ≤ 0.007) :
    0 ≤ heatT p eff dtv b ∧ heatT p eff dtv b ≤ 1 := by
  unfold heatT
  split_ifs with hA
  · have heff : (0 : ℚ) ≤ eff := le_of_lt (lt_trans (by norm_num) hA.2)
    have hprox : (0 : ℚ) ≤ max 0 (1 - b.y / p.heat_zone) := le_max_left _ _
    have hmsc : (0 : ℚ) ≤ 0.6 + 0.8 * (1 - b.mass / 0.007) := by
      have hdiv : b.mass / 0.007 ≤ 1 := by
        rw [div_le_one (by norm_num)]
        exact hm
      linarith
    have hrate : (0 : ℚ) ≤ max 0 (1 - b.y / p.heat_zone) * max 0 (1 - b.y / p.heat_zone) * 3.0
        * eff * (0.6 + 0.8 * (1 - b.mass / 0.007)) * b.wax.heat_sensitivity * dtv := by
      have := mul_nonneg (mul_nonneg (mul_nonneg (mul_nonneg (mul_nonneg
        (mul_nonneg hprox hprox) (by norm_num : (0:ℚ) ≤ 3.0)) heff) hmsc) hs) hdt
      exact this
    exact ⟨le_min (by norm_num) (by linarith), min_le_left _ _⟩
  · exact ⟨h0, h1⟩

lemma coolT_bounds (p : PhysicsParams) (dtv t1 : ℚ) (hdt : 0 ≤ dtv) (b : Blob)
    (hcz : p.cool_zone < 1) (htc : 0 ≤ p.top_cool_rate) (hmc : 0 ≤ p.mid_cool_rate)
    (hs : 0 ≤ b.wax.heat_sensitivity) (h0 : 0 ≤ t1) (h1 : t1 ≤ 1) :
    0 ≤ coolT p dtv t1 b ∧ coolT p dtv t1 b ≤ 1 := by
  unfold coolT
  split_ifs with hA hB
  · have hc : (0 : ℚ) ≤ ((b.y - p.cool_zone) / (1 - p.cool_zone)) * p.top_cool_rate
        * b.wax.heat_sensitivity * dtv := by
      have hnum : (0 : ℚ) ≤ (b.y - p.cool_zone) / (1 - p.cool_zone) :=
        div_nonneg (by linarith) (by linarith)
      exact mul_nonneg (mul_nonneg (mul_nonneg hnum htc) hs) hdt
    exact ⟨le_max_left _ _, max_le (by norm_num) (by linarith)⟩
  · have hc : (0 : ℚ) ≤ p.mid_cool_rate * b.wax.heat_sensitivity * dtv :=
      mul_nonneg (mul_nonneg hmc hs) hdt
    exact ⟨le_max_left _ _, max_le (by norm_num) (by linarith)⟩
  · exact ⟨h0, h1⟩

lemma stepBlob_good (sq : ℚ → ℚ) (p : PhysicsParams) (eff dtv r1 r2 r3 : ℚ) (hdt : 0 ≤ dtv)
    (hcz : p.cool_zone < 1) (htc : 0 ≤ p.top_cool_rate) (hmc : 0 ≤ p.mid_cool_rate)
    (b : Blob) (hb : GoodBlob b) : GoodBlob (stepBlob sq p eff dtv r1 r2 r3 b) := by
  obtain ⟨h0, h1, hs, hm⟩ := hb
  have hheat := heatT_bounds p eff dtv hdt b h0 h1 hs hm
  have hcool := coolT_bounds p dtv (heatT p eff dtv b) hdt b hcz htc hmc hs hheat.1 hheat.2
  exact ⟨hcool.1, hcool.2, hs, hm⟩

lemma goodBlob_of_nonVel_eq {b' b : Blob} (h : nonVel b' = nonVel b) (hb : GoodBlob b) :
    GoodBlob b' := by
  obtain ⟨h0, h1, hs, hm⟩ := hb
  have e1 : b'.temperature = b.temperature := congrArg BlobCore.temperature h
  have e2 : b'.wax = b.wax := congrArg BlobCore.wax h
  have e3 : b'.mass = b.mass := congrArg BlobCore.mass h
  exact ⟨by rw [e1]; exact h0, by rw [e1]; exact h1, by rw [e2]; exact hs, by rw [e3]; exact hm⟩

lemma engineStep_blobs_good (sq : ℚ → ℚ) (rands : ℕ → ℚ × ℚ × ℚ) (fb : ℕ × ℕ → ℚ × ℚ)
    (dt : ℚ) (st : EngineState) (hdt : 0 ≤ dt) (hp : st.params = defaultParams)
    (h : ∀ b ∈ st.blobs, GoodBlob b) :
    ∀ b' ∈ (engineStep sq rands fb dt st).blobs, GoodBlob b' := by
  intro b' hb'
  rcases engineStep_blobs_exists sq rands fb dt st hb' with ⟨eff, r1, r2, r3, b0, hb0, hnv⟩
  refine goodBlob_of_nonVel_eq hnv ?_
  refine stepBlob_good sq st.params eff (min dt 0.05) r1 r2 r3
    (le_min hdt (by norm_num)) ?_ ?_ ?_ b0 (h b0 hb0)
  · rw [hp]; norm_num [defaultParams]
  · rw [hp]; norm_num [defaultParams]
  · rw [hp]; norm_num [defaultParams]

lemma stirEngine_blobs_good (r : ℕ → ℚ × ℚ × ℚ) (s : ℚ) (st : EngineState)
    (h : ∀ b ∈ st.blobs, GoodBlob b) :
    ∀ b' ∈ (stirEngine r s st).blobs, GoodBlob b' := by
  intro b' hb'
  unfold stirEngine at hb'
  dsimp only at hb'
  rcases mem_mapWithIndex hb' with ⟨j, b0, hb0, rfl⟩
  exact h b0 hb0

lemma heatBurst_blobs_good (s : ℚ) (st : EngineState) (hs : 0 ≤ s)
    (h : ∀ b ∈ st.blobs, GoodBlob b) :
    ∀ b' ∈ (heatBurst s st).blobs, GoodBlob b' := by
  intro b' hb'
  unfold heatBurst at hb'
  dsimp only at hb'
  rcases List.mem_map.mp hb' with ⟨b0, hb0, rfl⟩
  obtain ⟨h0, h1, hsen, hm⟩ := h b0 hb0
  exact ⟨le_min (by norm_num) (by linarith), min_le_left _ _, hsen, hm⟩

/-- The ranges of the random draws `_create_blobs` makes for each ring blob:
`cos`/`sin` values in `[-1,1]`, `uniform(0,0.05)`, `uniform(0,0.06)`,
`uniform(0,0.03)`. -/
def drawsBounded (d : ℕ → ℚ × ℚ × ℚ × ℚ × ℚ) : Prop :=
  ∀ i, -1 ≤ (d i).1 ∧ (d i).1 ≤ 1 ∧ -1 ≤ (d i).2.1 ∧ (d i).2.1 ≤ 1
    ∧ 0 ≤ (d i).2.2.1 ∧ (d i).2.2.1 ≤ 0.05
    ∧ 0 ≤ (d i).2.2.2.1 ∧ (d i).2.2.2.1 ≤ 0.06
    ∧ 0 ≤ (d i).2.2.2.2 ∧ (d i).2.2.2.2 ≤ 0.03

lemma reset_blobs_good (d : ℕ → ℚ × ℚ × ℚ × ℚ × ℚ) (count : ℕ) (hd : drawsBounded d) :
    ∀ b ∈ (resetEngine defaultParams d count).blobs, GoodBlob b := by
  intro b hb
  unfold resetEngine at hb
  dsimp only at hb
  rcases List.mem_append.mp hb with hb | hb
  · rcases List.mem_map.mp hb with ⟨i, _, rfl⟩
    obtain ⟨_, _, _, _, _, _, hur0, hur1, _, _⟩ := hd i
    refine ⟨le_refl 0, by norm_num [createBlob], by norm_num [createBlob, standardWax], ?_⟩
    show (0.10 + (d i).2.2.2.1) ^ 3 ≤ 0.007
    have hr0 : (0 : ℚ) ≤ 0.10 + (d i).2.2.2.1 := by linarith
    have hr1 : (0.10 : ℚ) + (d i).2.2.2.1 ≤ 0.16 := by linarith
    calc (0.10 + (d i).2.2.2.1) ^ 3 ≤ 0.16 ^ 3 := pow_le_pow_left₀ hr0 hr1 3
      _ ≤ 0.007 := by norm_num
  · rcases List.mem_singleton.mp hb with rfl
    exact ⟨le_refl 0, by norm_num [poolBlob], by norm_num [poolBlob, standardWax],
      by norm_num [poolBlob]⟩

/-- The engine states reachable from a `reset` of a default-parameter engine
(with in-range random draws) by any sequence of `step(dt)` with `dt ≥ 0`,
`stir(strength)`, and `heat_burst(strength)` with `strength ≥ 0`. -/
inductive Reachable : EngineState → Prop
  | reset (d : ℕ → ℚ × ℚ × ℚ × ℚ × ℚ) (count : ℕ) (hd : drawsBounded d) :
      Reachable (resetEngine defaultParams d count)
  | step (sq : ℚ → ℚ) (rands : ℕ → ℚ × ℚ × ℚ) (fb : ℕ × ℕ → ℚ × ℚ) (dt : ℚ)
      (st : EngineState) (hdt : 0 ≤ dt) (h : Reachable st) :
      Reachable (engineStep sq rands fb dt st)
  | stir (r : ℕ → ℚ × ℚ × ℚ) (s : ℚ) (st : EngineState) (h : Reachable st) :
      Reachable (stirEngine r s st)
  | burst (s : ℚ) (st : EngineState) (hs : 0 ≤ s) (h : Reachable st) :
      Reachable (heatBurst s st)

lemma reachable_good {st : EngineState} (h : Reachable st) :
    st.params = defaultParams ∧ ∀ b ∈ st.blobs, GoodBlob b := by
  induction h with
  | reset d count hd => exact ⟨rfl, reset_blobs_good d count hd⟩
  | step sq rands fb dt st' hdt _ ih =>
      exact ⟨ih.1, engineStep_blobs_good sq rands fb dt st' hdt ih.1 ih.2⟩
  | stir r s st' _ ih => exact ⟨ih.1, stirEngine_blobs_good r s st' ih.2⟩
  | burst s st' hs _ ih => exact ⟨ih.1, heatBurst_blobs_good s st' hs ih.2⟩

/-- **C2.** In every engine state reachable from `reset` by any sequence of
`step(dt)` with `dt ≥ 0`, `stir(strength)`, and `heat_burst(strength)` with
`strength ≥ 0`, every blob's temperature lies in `[0, 1]`: each heating
and cooling adjustment inside `step`, and the `heat_burst` boost, is clamped
back into `[0, 1]`. -/
theorem c2_temperature_invariant (st : EngineState) (h : Reachable st) :
    ∀ b ∈ st.blobs, 0 ≤ b.temperature ∧ b.temperature ≤ 1 := by
  intro b hb
  obtain ⟨h0, h1, _, _⟩ := (reachable_good h).2 b hb
  exact ⟨h0, h1⟩

def c2Draws : ℕ → ℚ × ℚ × ℚ × ℚ × ℚ := fun _ => (1, 0, 0, 0, 0)

theorem c2_temperature_invariant_witness :
    0 ≤ (poolBlob defaultParams.cold_radius_fraction).temperature
    ∧ (poolBlob defaultParams.cold_radius_fraction).temperature ≤ 1 := by
  have hreach : Reachable (resetEngine defaultParams c2Draws 0) :=
    Reachable.reset c2Draws 0 (fun i => by norm_num [c2Draws])
  exact c2_temperature_invariant _ hreach _ (by simp [resetEngine])

-- ───────────────────────── C5: render determinism and purity ─────────────────────────

/-- **C5.** A `render_frame` call is a pure function of the blob list, the
warmup fraction, the colour scheme and the output geometry: two calls on
states with identical blob collections and identical warmup fractions yield
the same image (so repeating the call on unchanged data is byte-identical),
and a call returns the engine state untouched — the source reads
`engine.blobs` and `engine.warmup_fraction` and assigns to nothing. -/
theorem c5_render_deterministic_pure (sinpi : ℚ → ℚ) (scheme : ColorScheme)
    (w h : ℕ) (rs : ℚ) (st1 st2 : EngineState)
    (hb : st1.blobs = st2.blobs)
    (hw : warmupFraction st1.params st1.warmup_time = warmupFraction st2.params st2.warmup_time) :
    (renderCall sinpi st1 scheme w h rs).1 = (renderCall sinpi st2 scheme w h rs).1
    ∧ (renderCall sinpi st1 scheme w h rs).2 = st1 := by
  refine ⟨?_, rfl⟩
  unfold renderCall
  dsimp only
  rw [hb, hw]

def c5Scheme : ColorScheme :=
  { base := (180, 30, 10), hot := (255, 180, 40), liquid := (45, 15, 8),
    bg := (20, 8, 5), contrast := none }

def c5St1 : EngineState := { params := defaultParams, warmup_time := 18, blobs := [c3a] }

def c5St2 : EngineState := { params := defaultParams, warmup_time := 19, blobs := [c3a] }

theorem c5_render_deterministic_pure_witness :
    (renderCall (fun _ => 0) c5St1 c5Scheme 220 520 0.35).1
      = (renderCall (fun _ => 0) c5St2 c5Scheme 220 520 0.35).1
    ∧ (renderCall (fun _ => 0) c5St1 c5Scheme 220 520 0.35).2 = c5St1 :=
  c5_render_deterministic_pure (fun _ => 0) c5Scheme 220 520 0.35 c5St1 c5St2 rfl
    (by norm_num [c5St1, c5St2, warmupFraction, defaultParams, min_def])

-- ───────────────────────── C7: output shape and byte range ─────────────────────────

/-- All four entries of an RGBA pixel lie in the byte range `0..255`. -/
def ByteRanged (c : ℤ × ℤ × ℤ × ℤ) : Prop :=
  0 ≤ c.1 ∧ c.1 ≤ 255 ∧ 0 ≤ c.2.1 ∧ c.2.1 ≤ 255
  ∧ 0 ≤ c.2.2.1 ∧ c.2.2.1 ≤ 255 ∧ 0 ≤ c.2.2.2 ∧ c.2.2.2 ≤ 255

lemma truncInt_nonneg {q : ℚ} (h : 0 ≤ q) : 0 ≤ truncInt q := by
  unfold truncInt
  rw [if_pos h]
  exact Int.floor_nonneg.mpr h

lemma toU8_bounds (q : ℚ) : 0 ≤ toU8 q ∧ toU8 q ≤ 255 := by
  have h0 : (0 : ℚ) ≤ min 255 (max 0 q) := le_min (by norm_num) (le_max_left 0 q)
  unfold toU8 truncInt
  rw [if_pos h0]
  refine ⟨Int.floor_nonneg.mpr h0, ?_⟩
  calc ⌊min 255 (max 0 q)⌋ ≤ ⌊(255 : ℚ)⌋ := Int.floor_le_floor (min_le_left _ _)
    _ = 255 := by norm_num

lemma basePixel_bounds (sinpi : ℚ → ℚ) (blobs : List Blob) (scheme : ColorScheme)
    (rh rw py px : ℕ) : ByteRanged (basePixel sinpi blobs scheme rh rw py px) := by
  unfold basePixel
  dsimp only
  split_ifs <;>
    first
      | exact ⟨(toU8_bounds _).1, (toU8_bounds _).2, (toU8_bounds _).1, (toU8_bounds _).2,
          (toU8_bounds _).1, (toU8_bounds _).2, by norm_num, by norm_num⟩
      | exact ⟨le_refl 0, by norm_num, le_refl 0, by norm_num, le_refl 0, by norm_num,
          le_refl 0, by norm_num⟩

lemma overlayPixel_bounds (scheme : ColorScheme) (ga : ℚ) (c : ℤ × ℤ × ℤ × ℤ)
    (hga : 0 ≤ ga)
    (hbase : 0 ≤ scheme.base.1 ∧ 0 ≤ scheme.base.2.1 ∧ 0 ≤ scheme.base.2.2)
    (hc : ByteRanged c) : ByteRanged (overlayPixel scheme ga c) := by
  obtain ⟨hc1, _, hc2, _, hc3, _, hc4, hc5⟩ := hc
  unfold overlayPixel
  refine ⟨?_, min_le_left _ _, ?_, min_le_left _ _, ?_, min_le_left _ _, hc4, hc5⟩
  · exact le_min (by norm_num)
      (truncInt_nonneg (add_nonneg (by exact_mod_cast hc1) (mul_nonneg hbase.1 hga)))
  · exact le_min (by norm_num)
      (truncInt_nonneg (add_nonneg (by exact_mod_cast hc2) (mul_nonneg hbase.2.1 hga)))
  · exact le_min (by norm_num)
      (truncInt_nonneg (add_nonneg (by exact_mod_cast hc3) (mul_nonneg hbase.2.2 hga)))

lemma pixelAt_bounds (sinpi : ℚ → ℚ) (blobs : List Blob) (warmup : ℚ) (scheme : ColorScheme)
    (rh rw py px : ℕ) (hwm : 0 ≤ warmup)
    (hbase : 0 ≤ scheme.base.1 ∧ 0 ≤ scheme.base.2.1 ∧ 0 ≤ scheme.base.2.2) :
    ByteRanged (pixelAt sinpi blobs warmup scheme rh rw py px) := by
  unfold pixelAt
  dsimp only
  split_ifs with h
  · refine overlayPixel_bounds scheme _ _ ?_ hbase (basePixel_bounds sinpi blobs scheme rh rw py px)
    exact mul_nonneg (add_nonneg (by norm_num) (mul_nonneg hwm (by norm_num)))
      (sub_nonneg.mpr h.2.2.1.le)
  · exact basePixel_bounds sinpi blobs scheme rh rw py px

/-- **C7 (amended).** `render` returns an RGBA buffer whose row and column
counts are `max(4, ⌊height × render_scale⌋)` and
`max(4, ⌊width × render_scale⌋)` — the floored sizes, but never below 4 —
and (for a scheme with nonnegative base channels and a nonnegative warmup
fraction) every channel of every pixel is a byte in `0..255`. -/
theorem c7_output_shape_range (sinpi : ℚ → ℚ) (blobs : List Blob) (warmup : ℚ)
    (scheme : ColorScheme) (w h : ℕ) (rs : ℚ) (hwm : 0 ≤ warmup)
    (hbase : 0 ≤ scheme.base.1 ∧ 0 ≤ scheme.base.2.1 ∧ 0 ≤ scheme.base.2.2) :
    (renderFrame sinpi blobs warmup scheme w h rs).rh
        = max 4 (truncInt ((h : ℚ) * rs)).toNat
    ∧ (renderFrame sinpi blobs warmup scheme w h rs).rw
        = max 4 (truncInt ((w : ℚ) * rs)).toNat
    ∧ ∀ py px : ℕ, ByteRanged ((renderFrame sinpi blobs warmup scheme w h rs).pix py px) :=
  ⟨rfl, rfl, fun py px => pixelAt_bounds sinpi blobs warmup scheme _ _ py px hwm hbase⟩

theorem c7_output_shape_range_witness :
    ByteRanged ((renderFrame (fun _ => 0) [] 0 c5Scheme 220 520 0.35).pix 0 0) :=
  (c7_output_shape_range (fun _ => 0) [] 0 c5Scheme 220 520 0.35 (by norm_num)
    (by norm_num [c5Scheme])).2.2 0 0

/-- **C7, claim as stated is false.** At `width = 2`, `render_scale = 1` the
claimed column count is `⌊width × render_scale⌋ = 2`, but the source clamps
the render resolution from below: `max(4, int(width * render_scale))`
produces a 4-pixel-wide buffer. -/
theorem c7_shape_claim_cex :
    (renderFrame (fun _ => 0) [] 0 c5Scheme 2 520 1).rw ≠ (truncInt ((2 : ℚ) * 1)).toNat := by
  have h2 : truncInt ((2 : ℚ) * 1) = 2 := by
    unfold truncInt
    rw [if_pos (by norm_num)]
    norm_num
  show max 4 (truncInt (((2 : ℕ) : ℚ) * 1)).toNat ≠ (truncInt ((2 : ℚ) * 1)).toNat
  rw [show (((2 : ℕ) : ℚ) * 1) = ((2 : ℚ) * 1) by norm_num, h2]
  decide

end LavaLamp
